import Mathlib

/-!
Shallow embedding of the `configurator` Go package (configurator.go).

The configuration record walked by reflection in Go is embedded as a list of
fields; each field carries its struct-tag metadata (`default` tag, `env` tag)
together with its exported-ness (Go: `PkgPath == ""`) and its current value.
The process environment, the file system, the external JSON unmarshaller and
the command-line arguments are passed explicitly; the package-global `EnvPrefix`
and `ConfigLocation` variables become explicit arguments, with their built-in
default values kept as definitions.
-/

namespace Configurator

/-- Struct-tag metadata of one field: the `default` tag, the `env` tag, and
whether the field is exported (Go: `StructField.PkgPath == ""`). -/
structure Tags where
  defaultTag : String
  envTag : String
  exported : Bool

/-- One field of a configuration record, by reflected kind: bool, int, string,
nested struct, or any other (unsupported) kind. -/
inductive Field where
  | fBool (tags : Tags) (b : Bool)
  | fInt (tags : Tags) (n : Int)
  | fString (tags : Tags) (s : String)
  | fStruct (tags : Tags) (fields : List Field)
  | fOther (tags : Tags)

/-- A configuration record is its (ordered) list of fields. -/
abbrev Config := List Field

/-- Default value of the package-global `EnvPrefix` variable. -/
def EnvPrefix : String := "CONFIGURATOR_"

/-- Default value of the package-global `ConfigLocation` variable,
derived from the default prefix at package initialization. -/
def ConfigLocation : String := EnvPrefix ++ "CONFIG"

/-- Go `strconv.ParseBool`: accepts exactly the listed tokens, anything else
is a parse error (`none`). -/
def strconvParseBool (s : String) : Option Bool :=
  if s = "1" ∨ s = "t" ∨ s = "T" ∨ s = "true" ∨ s = "TRUE" ∨ s = "True" then some true
  else if s = "0" ∨ s = "f" ∨ s = "F" ∨ s = "false" ∨ s = "FALSE" ∨ s = "False" then some false
  else none

/-- All-decimal-digit string to a number; `none` on an empty list or any
non-digit character. -/
def digitsToNat : List Char → Option Nat
  | [] => none
  | [c] => if c.isDigit then some (c.toNat - 48) else none
  | c :: rest =>
    if c.isDigit then
      match digitsToNat rest with
      | some n => some ((c.toNat - 48) * 10 ^ rest.length + n)
      | none => none
    else none

/-- Go `strconv.ParseInt(s, 10, 64)` (bit size 0 on a 64-bit host is 64):
returns the parsed value and an ok flag. A syntax error yields `(0, false)`;
a value out of the signed 64-bit range yields the clamped boundary with
`false`, as Go's range error does. -/
def strconvParseInt (s : String) : Int × Bool :=
  let chars := s.toList
  let signed : Bool × List Char :=
    match chars with
    | '-' :: rest => (true, rest)
    | '+' :: rest => (false, rest)
    | cs => (false, cs)
  match digitsToNat signed.2 with
  | none => (0, false)
  | some n =>
    let v : Int := if signed.1 then -(n : Int) else (n : Int)
    if v < -(2 ^ 63) then (-(2 ^ 63), false)
    else if v > 2 ^ 63 - 1 then (2 ^ 63 - 1, false)
    else (v, true)

/-- Modelled from the spec: `goutils.String2Bool` (external go-utils library,
not in this repository) — "boolean via a permissive true/false token parser
(unparseable tokens treated as false, not an error)". -/
def String2Bool (s : String) : Bool :=
  (strconvParseBool s).getD false

/-- Modelled from the spec: `goutils.String2Int64` (external go-utils library,
not in this repository) — "integer via base-10 parsing (unparseable tokens
treated as zero, not an error)". -/
def String2Int64 (s : String) : Int :=
  let p := strconvParseInt s
  if p.2 then p.1 else 0

/-- ASCII uppercase of one character (Go `strings.ToUpper`, restricted to the
ASCII inputs this package manipulates). -/
def charToUpper (c : Char) : Char :=
  if 'a' ≤ c ∧ c ≤ 'z' then Char.ofNat (c.toNat - 32) else c

/-- ASCII lowercase of one character (Go `strings.ToLower`, restricted to the
ASCII inputs this package manipulates). -/
def charToLower (c : Char) : Char :=
  if 'A' ≤ c ∧ c ≤ 'Z' then Char.ofNat (c.toNat + 32) else c

/-- Go `strings.ToUpper` (ASCII fragment). -/
def goToUpper (s : String) : String := ⟨s.data.map charToUpper⟩

/-- Go `strings.ToLower` (ASCII fragment). -/
def goToLower (s : String) : String := ⟨s.data.map charToLower⟩

/-- Go `strings.Replace(s, "_", "-", -1)`: every underscore becomes a hyphen
(the pattern is a single character, so this is a character map). -/
def replaceUnderscores (s : String) : String :=
  ⟨s.data.map (fun c => if c = '_' then '-' else c)⟩

/-- Go `strings.TrimPrefix`: drop `pre` from the front of `s` when `s` starts
with it verbatim, otherwise return `s` unchanged. -/
def trimLeading (s pre : String) : String :=
  if pre.data.isPrefixOf s.data then ⟨s.data.drop pre.data.length⟩ else s

/-- `formFlagName` from configurator.go, with the package-global `EnvPrefix`
passed explicitly as `pfx`: uppercase the input, trim the stored prefix,
replace underscores with hyphens, lowercase. -/
def formFlagName (pfx temp : String) : String :=
  let name := trimLeading (goToUpper temp) pfx
  let name := replaceUnderscores name
  goToLower name

mutual

/-- `handleDefaults` from configurator.go: walk the fields, and for each one
with a non-empty `default` tag (structs recursed into unconditionally) write
the parsed tag value; other kinds are skipped. -/
def handleDefaults : List Field → List Field
  | [] => []
  | f :: fs => handleDefaultsField f :: handleDefaults fs

/-- The per-field body of the loop inside `handleDefaults`. -/
def handleDefaultsField : Field → Field
  | .fBool t b => if t.defaultTag = "" then .fBool t b else .fBool t (String2Bool t.defaultTag)
  | .fInt t n => if t.defaultTag = "" then .fInt t n else .fInt t (String2Int64 t.defaultTag)
  | .fString t s => if t.defaultTag = "" then .fString t s else .fString t t.defaultTag
  | .fStruct t fs => .fStruct t (handleDefaults fs)
  | .fOther t => .fOther t

end

/-- `setDefaults` from configurator.go. -/
def setDefaults (c : Config) : Config := handleDefaults c

/-- The process environment store: variable name to value. -/
abbrev Env := List (String × String)

/-- Go `os.Getenv`: the value of the variable, or the empty string when the
variable is unset. -/
def getenv (env : Env) (name : String) : String :=
  match env.find? (fun p => p.1 == name) with
  | some p => p.2
  | none => ""

/-- The file system: path to contents; `none` means the read fails
(missing file, permission, ...). -/
abbrev FS := List (String × String)

/-- Go `ioutil.ReadFile` at the interface level: contents when readable. -/
def readFile (fs : FS) (path : String) : Option String :=
  match fs.find? (fun p => p.1 == path) with
  | some p => some p.2
  | none => none

/-- `getConfigFileContents` from configurator.go, with the package-global
`ConfigLocation` passed explicitly as `cfgLoc`: read the path from the
environment (error when empty), then read the file at that path. -/
def getConfigFileContents (cfgLoc : String) (env : Env) (fs : FS) : Except String String :=
  let file := getenv env cfgLoc
  if file = "" then
    .error ("No valid file path detected under environment variable " ++ cfgLoc)
  else
    match readFile fs file with
    | none => .error "read failure"
    | some contents => .ok contents

/-- The external JSON unmarshaller's interface: given file contents and the
record, either the updated record (`ok`) or a decode failure carrying the
possibly partially-overwritten record (`error`), since Go's `json.Unmarshal`
mutates in place before reporting an error. -/
abbrev Unmarshaller := String → Config → Except Config Config

/-- `setFromConfigFile` from configurator.go, with the external unmarshaller
passed explicitly: returns the success flag and the resulting record. -/
def setFromConfigFile (u : Unmarshaller) (cfgLoc : String) (env : Env) (fs : FS)
    (c : Config) : Bool × Config :=
  match getConfigFileContents cfgLoc env fs with
  | .error _ => (false, c)
  | .ok contents =>
    match u contents c with
    | .error c' => (false, c')
    | .ok c' => (true, c')

/-- The value a flag was seeded with at registration, which also records the
flag's type (boolean / integer / string). -/
inductive FlagDefault where
  | b (v : Bool)
  | i (v : Int)
  | s (v : String)

/-- One entry of the process-wide flag registry: the flag's name, the storage
slot it is bound to (the path of list indices of the field inside the record),
the seeded default value (which fixes the flag's type), and the description
text (always empty in this package). -/
structure FlagEntry where
  name : String
  path : List Nat
  value : FlagDefault
  usage : String

/-- The process-wide flag registry, in registration order. -/
abbrev Registry := List FlagEntry

/-- Go `flag.Lookup`: the first entry registered under the name, if any. -/
def flagLookup (reg : Registry) (name : String) : Option FlagEntry :=
  reg.find? (fun e => e.name == name)

/-- `handleBoolEnvironmentVariable` from configurator.go: when the environment
value is non-empty, `parsed, _ := strconv.ParseBool(env)` discards the error
and the field is set to `parsed` (false on a parse failure); then, when no flag
of that name exists and the field is exported, a boolean flag bound to the
field's storage is registered with the field's current value as default and an
empty description. Returns the field's new value and the new registry. -/
def handleBoolEnvironmentVariable (t : Tags) (b : Bool) (flagName envVal : String)
    (path : List Nat) (reg : Registry) : Bool × Registry :=
  let b' := if envVal ≠ "" then (strconvParseBool envVal).getD false else b
  if (flagLookup reg flagName).isNone && t.exported then
    (b', reg ++ [⟨flagName, path, .b b', ""⟩])
  else
    (b', reg)

/-- `handleIntEnvironmentVariable` from configurator.go: as the boolean case,
with `parsed, _ := strconv.ParseInt(env, 10, 0)` (value kept, error
discarded) and an integer flag. -/
def handleIntEnvironmentVariable (t : Tags) (n : Int) (flagName envVal : String)
    (path : List Nat) (reg : Registry) : Int × Registry :=
  let n' := if envVal ≠ "" then (strconvParseInt envVal).1 else n
  if (flagLookup reg flagName).isNone && t.exported then
    (n', reg ++ [⟨flagName, path, .i n', ""⟩])
  else
    (n', reg)

/-- `handleStringEnvironmentVariable` from configurator.go: the raw value is
written unparsed, and a string flag is registered. -/
def handleStringEnvironmentVariable (t : Tags) (s : String) (flagName envVal : String)
    (path : List Nat) (reg : Registry) : String × Registry :=
  let s' := if envVal ≠ "" then envVal else s
  if (flagLookup reg flagName).isNone && t.exported then
    (s', reg ++ [⟨flagName, path, .s s', ""⟩])
  else
    (s', reg)

mutual

/-- `handleEnvironmentVariables` from configurator.go, with the package-global
prefix, the environment store and the flag registry passed explicitly; `path`
is the index path of the record being walked and `i` the index of the next
field, so that each field's registry entry records the storage it binds. -/
def handleEnvironmentVariables (pfx : String) (env : Env) (path : List Nat) (i : Nat) :
    List Field → Registry → List Field × Registry
  | [], reg => ([], reg)
  | f :: fs, reg =>
    let fr := handleEnvField pfx env (path ++ [i]) f reg
    let fsr := handleEnvironmentVariables pfx env path (i + 1) fs fr.2
    (fr.1 :: fsr.1, fsr.2)

/-- The per-field body of the loop inside `handleEnvironmentVariables`:
compute the prefixed tag, the flag name and the (uppercased) environment
lookup, then dispatch on the field's kind. -/
def handleEnvField (pfx : String) (env : Env) (path : List Nat) :
    Field → Registry → Field × Registry
  | .fBool t b, reg =>
    let tag := pfx ++ t.envTag
    let r := handleBoolEnvironmentVariable t b (formFlagName pfx tag) (getenv env (goToUpper tag)) path reg
    (.fBool t r.1, r.2)
  | .fInt t n, reg =>
    let tag := pfx ++ t.envTag
    let r := handleIntEnvironmentVariable t n (formFlagName pfx tag) (getenv env (goToUpper tag)) path reg
    (.fInt t r.1, r.2)
  | .fString t s, reg =>
    let tag := pfx ++ t.envTag
    let r := handleStringEnvironmentVariable t s (formFlagName pfx tag) (getenv env (goToUpper tag)) path reg
    (.fString t r.1, r.2)
  | .fStruct t fs, reg =>
    let r := handleEnvironmentVariables pfx env path 0 fs reg
    (.fStruct t r.1, r.2)
  | .fOther t, reg => (.fOther t, reg)

end

/-- `setFromEnvironment` from configurator.go. -/
def setFromEnvironment (pfx : String) (env : Env) (c : Config) (reg : Registry) :
    Config × Registry :=
  handleEnvironmentVariables pfx env [] 0 c reg

/-- Write a value into the field itself when the kinds agree (the flag's bound
storage slot is typed). -/
def setFieldValue : Field → FlagDefault → Field
  | .fBool t _, .b v => .fBool t v
  | .fInt t _, .i v => .fInt t v
  | .fString t _, .s v => .fString t v
  | f, _ => f

mutual

/-- Write a value through a storage path into the record: the head index
selects the field, the remaining path descends into nested structs. -/
def setAtPath (v : FlagDefault) : List Nat → List Field → List Field
  | _, [] => []
  | [], fs => fs
  | 0 :: rest, f :: fs => setAtPathField v rest f :: fs
  | (n + 1) :: rest, f :: fs => f :: setAtPath v (n :: rest) fs

/-- Write a value into the selected field: an empty remaining path writes the
field itself, a non-empty one descends into a nested struct. -/
def setAtPathField (v : FlagDefault) : List Nat → Field → Field
  | [], f => setFieldValue f v
  | i :: rest, .fStruct t inner => .fStruct t (setAtPath v (i :: rest) inner)
  | _ :: _, f => f

end

/-- Modelled from the spec: `flag.Parse` of the external flag package — parse
the process's command-line arguments against the accumulated flag registry,
writing each supplied value through the named flag's bound storage slot, typed
per the flag. Arguments are taken at the interface level as (name, raw value)
pairs; an argument naming no registered flag, or whose raw value does not
parse at the flag's type, writes nothing. -/
def flagParse (reg : Registry) (args : List (String × String)) (c : Config) : Config :=
  args.foldl
    (fun c arg =>
      match flagLookup reg arg.1 with
      | none => c
      | some e =>
        match e.value with
        | .b _ =>
          match strconvParseBool arg.2 with
          | some v => setAtPath (.b v) e.path c
          | none => c
        | .i _ =>
          let p := strconvParseInt arg.2
          if p.2 then setAtPath (.i p.1) e.path c else c
        | .s _ => setAtPath (.s arg.2) e.path c)
    c

/-- `InitializeConfig` from configurator.go, with the package globals
(`EnvPrefix`, `ConfigLocation`), the external collaborators (unmarshaller,
environment, file system, command-line arguments) and the process-wide flag
registry passed explicitly: set defaults, overlay the config file discarding
its success flag, overlay the environment while registering flags, then parse
the command-line flags. -/
def InitializeConfig (pfx cfgLoc : String) (u : Unmarshaller) (env : Env) (fs : FS)
    (args : List (String × String)) (c : Config) (reg : Registry) : Config × Registry :=
  let c1 := setDefaults c
  let c2 := (setFromConfigFile u cfgLoc env fs c1).2
  let r3 := setFromEnvironment pfx env c2 reg
  (flagParse r3.2 args r3.1, r3.2)

mutual

/-- The flag names the Environment/Flag Binder computes for the (exported,
supported-kind) fields of a record, in walk order. -/
def flagNames (pfx : String) : List Field → List String
  | [] => []
  | f :: fs => flagNamesField pfx f ++ flagNames pfx fs

/-- The flag names computed for one field (recursing into nested structs). -/
def flagNamesField (pfx : String) : Field → List String
  | .fBool t _ => if t.exported then [formFlagName pfx (pfx ++ t.envTag)] else []
  | .fInt t _ => if t.exported then [formFlagName pfx (pfx ++ t.envTag)] else []
  | .fString t _ => if t.exported then [formFlagName pfx (pfx ++ t.envTag)] else []
  | .fStruct _ fs => flagNames pfx fs
  | .fOther _ => []

end

theorem flagLookup_append (reg tail : Registry) (n : String) :
    flagLookup (reg ++ tail) n = (flagLookup reg n).or (flagLookup tail n) := by
  simp [flagLookup]

theorem flagLookup_isSome_append {reg : Registry} {n : String}
    (h : (flagLookup reg n).isSome) (tail : Registry) :
    (flagLookup (reg ++ tail) n).isSome := by
  rw [flagLookup_append]
  cases hh : flagLookup reg n with
  | none => rw [hh] at h; simp at h
  | some e => simp [Option.or]

theorem flagLookup_register {reg : Registry} {n : String} (e : FlagEntry)
    (hn : e.name = n) (h : flagLookup reg n = none) :
    flagLookup (reg ++ [e]) n = some e := by
  rw [flagLookup_append, h]
  simp [Option.or, flagLookup, hn]

mutual

/-- After one environment pass over a field list, the registry has only grown,
and every flag name the walked fields compute (for exported, supported-kind
fields) is registered. -/
theorem handleEnvironmentVariables_reg_extend (pfx : String) (env : Env) (path : List Nat)
    (i : Nat) (fs : List Field) (reg : Registry) :
    (∃ tail, (handleEnvironmentVariables pfx env path i fs reg).2 = reg ++ tail) ∧
    (∀ n ∈ flagNames pfx fs,
      (flagLookup (handleEnvironmentVariables pfx env path i fs reg).2 n).isSome) := by
  cases fs with
  | nil =>
    refine ⟨⟨[], by simp [handleEnvironmentVariables]⟩, ?_⟩
    intro n hn
    simp [flagNames] at hn
  | cons f fs =>
    obtain ⟨⟨t1, h1⟩, c1⟩ := handleEnvField_reg_extend pfx env (path ++ [i]) f reg
    obtain ⟨⟨t2, h2⟩, c2⟩ := handleEnvironmentVariables_reg_extend pfx env path (i + 1) fs
      (handleEnvField pfx env (path ++ [i]) f reg).2
    refine ⟨⟨t1 ++ t2, ?_⟩, ?_⟩
    · simp only [handleEnvironmentVariables]
      rw [h2, h1, List.append_assoc]
    · intro n hn
      simp only [handleEnvironmentVariables]
      rw [flagNames] at hn
      rcases List.mem_append.1 hn with hl | hr
      · rw [h2]
        exact flagLookup_isSome_append (c1 n hl) t2
      · exact c2 n hr

/-- After the environment pass handles one field, the registry has only grown,
and every flag name that field computes is registered. -/
theorem handleEnvField_reg_extend (pfx : String) (env : Env) (path : List Nat)
    (f : Field) (reg : Registry) :
    (∃ tail, (handleEnvField pfx env path f reg).2 = reg ++ tail) ∧
    (∀ n ∈ flagNamesField pfx f,
      (flagLookup (handleEnvField pfx env path f reg).2 n).isSome) := by
  cases f with
  | fStruct t fs =>
    obtain ⟨⟨tail, h⟩, c⟩ := handleEnvironmentVariables_reg_extend pfx env path 0 fs reg
    exact ⟨⟨tail, by simpa [handleEnvField] using h⟩, fun n hn => by
      simpa [handleEnvField] using c n (by simpa [flagNamesField] using hn)⟩
  | fOther t =>
    exact ⟨⟨[], by simp [handleEnvField]⟩, fun n hn => by simp [flagNamesField] at hn⟩
  | fBool t b =>
    simp only [handleEnvField, handleBoolEnvironmentVariable, flagNamesField]
    split
    case isTrue hcond =>
      refine ⟨⟨_, rfl⟩, ?_⟩
      intro n hn
      rcases Bool.and_eq_true_iff.1 hcond with ⟨hnone, hexp⟩
      rw [hexp] at hn
      simp at hn
      subst hn
      rw [flagLookup_register _ rfl (Option.isNone_iff_eq_none.1 hnone)]
      simp
    case isFalse hcond =>
      refine ⟨⟨[], by simp⟩, ?_⟩
      intro n hn
      rcases ht : t.exported with _ | _
      · rw [ht] at hn; simp at hn
      · rw [ht] at hn
        simp at hn
        subst hn
        rw [ht] at hcond
        simp at hcond
        simpa [Option.isSome_iff_ne_none] using hcond
  | fInt t v =>
    simp only [handleEnvField, handleIntEnvironmentVariable, flagNamesField]
    split
    case isTrue hcond =>
      refine ⟨⟨_, rfl⟩, ?_⟩
      intro n hn
      rcases Bool.and_eq_true_iff.1 hcond with ⟨hnone, hexp⟩
      rw [hexp] at hn
      simp at hn
      subst hn
      rw [flagLookup_register _ rfl (Option.isNone_iff_eq_none.1 hnone)]
      simp
    case isFalse hcond =>
      refine ⟨⟨[], by simp⟩, ?_⟩
      intro n hn
      rcases ht : t.exported with _ | _
      · rw [ht] at hn; simp at hn
      · rw [ht] at hn
        simp at hn
        subst hn
        rw [ht] at hcond
        simp at hcond
        simpa [Option.isSome_iff_ne_none] using hcond
  | fString t v =>
    simp only [handleEnvField, handleStringEnvironmentVariable, flagNamesField]
    split
    case isTrue hcond =>
      refine ⟨⟨_, rfl⟩, ?_⟩
      intro n hn
      rcases Bool.and_eq_true_iff.1 hcond with ⟨hnone, hexp⟩
      rw [hexp] at hn
      simp at hn
      subst hn
      rw [flagLookup_register _ rfl (Option.isNone_iff_eq_none.1 hnone)]
      simp
    case isFalse hcond =>
      refine ⟨⟨[], by simp⟩, ?_⟩
      intro n hn
      rcases ht : t.exported with _ | _
      · rw [ht] at hn; simp at hn
      · rw [ht] at hn
        simp at hn
        subst hn
        rw [ht] at hcond
        simp at hcond
        simpa [Option.isSome_iff_ne_none] using hcond

end

mutual

/-- The environment pass rewrites field values only: the flag names computed
from the resulting fields are those of the input fields. -/
theorem handleEnvironmentVariables_names (pfx : String) (env : Env) (path : List Nat)
    (i : Nat) (fs : List Field) (reg : Registry) (pfx2 : String) :
    flagNames pfx2 (handleEnvironmentVariables pfx env path i fs reg).1 = flagNames pfx2 fs := by
  cases fs with
  | nil => simp [handleEnvironmentVariables]
  | cons f fs =>
    simp only [handleEnvironmentVariables, flagNames]
    rw [handleEnvField_names pfx env (path ++ [i]) f reg pfx2,
      handleEnvironmentVariables_names pfx env path (i + 1) fs
        (handleEnvField pfx env (path ++ [i]) f reg).2 pfx2]

/-- Per-field version of `handleEnvironmentVariables_names`. -/
theorem handleEnvField_names (pfx : String) (env : Env) (path : List Nat)
    (f : Field) (reg : Registry) (pfx2 : String) :
    flagNamesField pfx2 (handleEnvField pfx env path f reg).1 = flagNamesField pfx2 f := by
  cases f with
  | fBool t b => simp [handleEnvField, flagNamesField]
  | fInt t n => simp [handleEnvField, flagNamesField]
  | fString t s => simp [handleEnvField, flagNamesField]
  | fStruct t fs =>
    simp only [handleEnvField, flagNamesField]
    exact handleEnvironmentVariables_names pfx env path 0 fs reg pfx2
  | fOther t => simp [handleEnvField, flagNamesField]

end

mutual

/-- When every flag name the fields compute is already registered, the
environment pass leaves the registry unchanged. -/
theorem handleEnvironmentVariables_reg_noop (pfx : String) (env : Env) (path : List Nat)
    (i : Nat) (fs : List Field) (reg : Registry)
    (h : ∀ n ∈ flagNames pfx fs, (flagLookup reg n).isSome) :
    (handleEnvironmentVariables pfx env path i fs reg).2 = reg := by
  cases fs with
  | nil => simp [handleEnvironmentVariables]
  | cons f fs =>
    have hf : (handleEnvField pfx env (path ++ [i]) f reg).2 = reg :=
      handleEnvField_reg_noop pfx env (path ++ [i]) f reg
        (fun n hn => h n (by rw [flagNames]; exact List.mem_append.2 (Or.inl hn)))
    simp only [handleEnvironmentVariables]
    rw [hf]
    exact handleEnvironmentVariables_reg_noop pfx env path (i + 1) fs reg
      (fun n hn => h n (by rw [flagNames]; exact List.mem_append.2 (Or.inr hn)))

/-- Per-field version of `handleEnvironmentVariables_reg_noop`. -/
theorem handleEnvField_reg_noop (pfx : String) (env : Env) (path : List Nat)
    (f : Field) (reg : Registry)
    (h : ∀ n ∈ flagNamesField pfx f, (flagLookup reg n).isSome) :
    (handleEnvField pfx env path f reg).2 = reg := by
  cases f with
  | fStruct t fs =>
    simp only [handleEnvField]
    exact handleEnvironmentVariables_reg_noop pfx env path 0 fs reg
      (fun n hn => h n (by rwa [flagNamesField]))
  | fOther t => simp [handleEnvField]
  | fBool t b =>
    simp only [handleEnvField, handleBoolEnvironmentVariable]
    split
    case isTrue hcond =>
      rcases Bool.and_eq_true_iff.1 hcond with ⟨hnone, hexp⟩
      have := h (formFlagName pfx (pfx ++ t.envTag)) (by simp [flagNamesField, hexp])
      rw [Option.isNone_iff_eq_none.1 hnone] at this
      simp at this
    case isFalse hcond => rfl
  | fInt t n =>
    simp only [handleEnvField, handleIntEnvironmentVariable]
    split
    case isTrue hcond =>
      rcases Bool.and_eq_true_iff.1 hcond with ⟨hnone, hexp⟩
      have := h (formFlagName pfx (pfx ++ t.envTag)) (by simp [flagNamesField, hexp])
      rw [Option.isNone_iff_eq_none.1 hnone] at this
      simp at this
    case isFalse hcond => rfl
  | fString t s =>
    simp only [handleEnvField, handleStringEnvironmentVariable]
    split
    case isTrue hcond =>
      rcases Bool.and_eq_true_iff.1 hcond with ⟨hnone, hexp⟩
      have := h (formFlagName pfx (pfx ++ t.envTag)) (by simp [flagNamesField, hexp])
      rw [Option.isNone_iff_eq_none.1 hnone] at this
      simp at this
    case isFalse hcond => rfl

end

/-- Running the Environment/Flag Binder a second time (under any second
environment) adds nothing to the flag registry. -/
theorem setFromEnvironment_twice_reg (pfx : String) (env1 env2 : Env) (c : Config)
    (reg : Registry) :
    (setFromEnvironment pfx env2 (setFromEnvironment pfx env1 c reg).1
      (setFromEnvironment pfx env1 c reg).2).2 = (setFromEnvironment pfx env1 c reg).2 := by
  unfold setFromEnvironment
  apply handleEnvironmentVariables_reg_noop
  intro n hn
  rw [handleEnvironmentVariables_names pfx env1 [] 0 c reg pfx] at hn
  exact (handleEnvironmentVariables_reg_extend pfx env1 [] 0 c reg).2 n hn

/-- Tags of the sample field used in the concrete scenarios below. -/
def sampleTags : Tags := ⟨"foo", "ENV_FOO", true⟩

/-- A one-field sample record: an exported string field with default tag
`"foo"` and env tag `"ENV_FOO"`. -/
def sampleConfig : Config := [.fString sampleTags ""]

/-- A sample process environment binding the field's variable and the
config-file-path variable. -/
def sampleEnv : Env := [("CONFIGURATOR_ENV_FOO", "envval"), ("CONFIGURATOR_CONFIG", "/cfg")]

/-- A sample file system holding the config file. -/
def sampleFS : FS := [("/cfg", "FILE")]

/-- A sample unmarshaller: decodes the contents `"FILE"` by writing
`"fileval"` into the first field, and fails (without writes) on anything
else. -/
def sampleUnmarshal : Unmarshaller := fun contents c =>
  if contents = "FILE" then .ok (setAtPath (.s "fileval") [0] c) else .error c

/-- Sample command-line arguments supplying the field's flag. -/
def sampleArgs : List (String × String) := [("env-foo", "flagval")]

/-- C1: `InitializeConfig` runs exactly four stages in strict sequence —
`setDefaults`, then `setFromConfigFile` with its boolean result discarded,
then `setFromEnvironment`, then the command-line flag parse — so a field
written by several stages ends at the later stage's value: on the sample
record the field written by all four stages moves foo → fileval → envval →
flagval, and the final value is the flag stage's. -/
theorem InitializeConfig_stage_order :
    (∀ (pfx cfgLoc : String) (u : Unmarshaller) (env : Env) (fs : FS)
        (args : List (String × String)) (c : Config) (reg : Registry),
      InitializeConfig pfx cfgLoc u env fs args c reg =
        (flagParse (setFromEnvironment pfx env
            ((setFromConfigFile u cfgLoc env fs (setDefaults c)).2) reg).2 args
          (setFromEnvironment pfx env
            ((setFromConfigFile u cfgLoc env fs (setDefaults c)).2) reg).1,
         (setFromEnvironment pfx env
            ((setFromConfigFile u cfgLoc env fs (setDefaults c)).2) reg).2)) ∧
    setDefaults sampleConfig = [.fString sampleTags "foo"] ∧
    (setFromConfigFile sampleUnmarshal ConfigLocation sampleEnv sampleFS
      [.fString sampleTags "foo"]).2 = [.fString sampleTags "fileval"] ∧
    (setFromEnvironment EnvPrefix sampleEnv [.fString sampleTags "fileval"] []).1
      = [.fString sampleTags "envval"] ∧
    (InitializeConfig EnvPrefix ConfigLocation sampleUnmarshal sampleEnv sampleFS
      sampleArgs sampleConfig []).1 = [.fString sampleTags "flagval"] :=
  ⟨fun _ _ _ _ _ _ _ _ => rfl, rfl, rfl, rfl, rfl⟩

/-- C2 counterexample: with a non-empty unparseable environment value, the
boolean field does NOT keep its prior value `true` — it is set to `false`
(the discarded parse's zero value) — and the integer field does not keep its
prior value `7` — it is set to `0`. -/
theorem envParse_failure_counterexample :
    strconvParseBool "notabool" = none ∧
    (handleBoolEnvironmentVariable ⟨"", "ENV_X", true⟩ true "env-x" "notabool" [0] []).1 ≠ true ∧
    strconvParseInt "notanint" = (0, false) ∧
    (handleIntEnvironmentVariable ⟨"", "ENV_Y", true⟩ 7 "env-y" "notanint" [1] []).1 ≠ 7 :=
  ⟨rfl, by decide, rfl, by decide⟩

/-- C2 (amended): for a boolean or integer field whose non-empty environment
value cannot be parsed, no error is surfaced, but the field does not retain
its prior value: `parsed, _ := strconv.Parse...` discards the error and the
error-case return value is written — `false` for booleans, `0` for
syntactically unparseable integers. -/
theorem envParse_failure_overwrites (t : Tags) (b : Bool) (n : Int)
    (flagName : String) (path : List Nat) (reg : Registry) (sb si : String)
    (hb : strconvParseBool sb = none) (hbne : sb ≠ "")
    (hi : strconvParseInt si = (0, false)) (hine : si ≠ "") :
    (handleBoolEnvironmentVariable t b flagName sb path reg).1 = false ∧
    (handleIntEnvironmentVariable t n flagName si path reg).1 = 0 := by
  constructor
  · rcases hcond : ((flagLookup reg flagName).isNone && t.exported) with _ | _ <;>
      simp [handleBoolEnvironmentVariable, hcond, hbne, hb]
  · rcases hcond : ((flagLookup reg flagName).isNone && t.exported) with _ | _ <;>
      simp [handleIntEnvironmentVariable, hcond, hine, hi]

/-- Witness for `envParse_failure_overwrites` at concrete unparseable
values. -/
theorem envParse_failure_overwrites_witness :
    strconvParseBool "junk" = none ∧ ("junk" : String) ≠ "" ∧
    strconvParseInt "junkint" = (0, false) ∧ ("junkint" : String) ≠ "" ∧
    ((handleBoolEnvironmentVariable ⟨"", "E", true⟩ true "n" "junk" [] []).1 = false ∧
     (handleIntEnvironmentVariable ⟨"", "E", true⟩ 7 "n" "junkint" [] []).1 = 0) :=
  ⟨rfl, by decide, rfl, by decide,
   envParse_failure_overwrites ⟨"", "E", true⟩ true 7 "n" [] [] "junk" "junkint"
     rfl (by decide) rfl (by decide)⟩

/-- C3: the Default Applier's per-field behaviour — structs are recursed into
unconditionally; a non-struct field with an empty default literal is left
untouched; otherwise the literal is parsed by kind (permissive boolean with
unparseable tokens becoming false, base-10 integer with unparseable tokens
becoming zero, string verbatim) and written; unsupported kinds are skipped
without error. -/
theorem handleDefaults_per_kind :
    (∀ (t : Tags) (fs : List Field),
      handleDefaultsField (.fStruct t fs) = .fStruct t (handleDefaults fs)) ∧
    (∀ (t : Tags) (b : Bool),
      handleDefaultsField (.fBool t b)
        = .fBool t (if t.defaultTag = "" then b else String2Bool t.defaultTag)) ∧
    (∀ (t : Tags) (n : Int),
      handleDefaultsField (.fInt t n)
        = .fInt t (if t.defaultTag = "" then n else String2Int64 t.defaultTag)) ∧
    (∀ (t : Tags) (s : String),
      handleDefaultsField (.fString t s)
        = .fString t (if t.defaultTag = "" then s else t.defaultTag)) ∧
    (∀ t : Tags, handleDefaultsField (.fOther t) = .fOther t) ∧
    (∀ s, strconvParseBool s = none → String2Bool s = false) ∧
    (∀ s, (strconvParseInt s).2 = false → String2Int64 s = 0) := by
  refine ⟨fun t fs => rfl, ?_, ?_, ?_, fun t => rfl, ?_, ?_⟩
  · intro t b
    by_cases h : t.defaultTag = "" <;> simp [handleDefaultsField, h]
  · intro t n
    by_cases h : t.defaultTag = "" <;> simp [handleDefaultsField, h]
  · intro t s
    by_cases h : t.defaultTag = "" <;> simp [handleDefaultsField, h]
  · intro s h
    simp [String2Bool, h]
  · intro s h
    simp [String2Int64, h]

/-- Witness for `handleDefaults_per_kind` at concrete inputs, including an
unparseable boolean and integer default literal. -/
theorem handleDefaults_per_kind_witness :
    strconvParseBool "zzz" = none ∧ String2Bool "zzz" = false ∧
    (strconvParseInt "zzz").2 = false ∧ String2Int64 "zzz" = 0 ∧
    handleDefaultsField (.fBool ⟨"zzz", "", true⟩ true) = .fBool ⟨"zzz", "", true⟩ false :=
  ⟨rfl, handleDefaults_per_kind.2.2.2.2.2.1 "zzz" rfl, rfl,
   handleDefaults_per_kind.2.2.2.2.2.2 "zzz" rfl,
   by simpa using handleDefaults_per_kind.2.1 ⟨"zzz", "", true⟩ true⟩

/-- C4 counterexample: an unexported boolean field of supported kind, with no
flag of the computed name registered, still registers no flag — the claim's
"for every supported non-struct field" omits the exported-field condition. -/
theorem flagRegistration_unexported_counterexample :
    flagLookup [] "env-x" = none ∧
    (handleBoolEnvironmentVariable ⟨"", "ENV_X", false⟩ true "env-x" "" [0] []).2 = [] :=
  ⟨rfl, rfl⟩

/-- C4 (amended): for every supported non-struct EXPORTED field,
unconditionally — whether or not its environment variable was present — if no
flag with the computed name is registered, a flag bound to the field's own
storage path is registered, typed per the field's kind, with empty
description, and seeded with the field's current (post-environment-overlay)
value as default. -/
theorem flagRegistration_exported_spec (t : Tags) (b : Bool) (n : Int) (s : String)
    (flagName envVal : String) (path : List Nat) (reg : Registry)
    (hexp : t.exported = true) (hnone : flagLookup reg flagName = none) :
    (handleBoolEnvironmentVariable t b flagName envVal path reg).2
      = reg ++ [⟨flagName, path,
          .b (handleBoolEnvironmentVariable t b flagName envVal path reg).1, ""⟩] ∧
    (handleIntEnvironmentVariable t n flagName envVal path reg).2
      = reg ++ [⟨flagName, path,
          .i (handleIntEnvironmentVariable t n flagName envVal path reg).1, ""⟩] ∧
    (handleStringEnvironmentVariable t s flagName envVal path reg).2
      = reg ++ [⟨flagName, path,
          .s (handleStringEnvironmentVariable t s flagName envVal path reg).1, ""⟩] := by
  refine ⟨?_, ?_, ?_⟩ <;>
    simp [handleBoolEnvironmentVariable, handleIntEnvironmentVariable,
      handleStringEnvironmentVariable, hexp, hnone]

/-- Witness for `flagRegistration_exported_spec` with an empty registry and
an absent environment value. -/
theorem flagRegistration_exported_spec_witness :
    (⟨"", "A", true⟩ : Tags).exported = true ∧ flagLookup [] "env-a" = none ∧
    ((handleBoolEnvironmentVariable ⟨"", "A", true⟩ true "env-a" "" [0] []).2
      = [] ++ [⟨"env-a", [0],
          .b (handleBoolEnvironmentVariable ⟨"", "A", true⟩ true "env-a" "" [0] []).1, ""⟩] ∧
     (handleIntEnvironmentVariable ⟨"", "A", true⟩ 7 "env-a" "" [0] []).2
      = [] ++ [⟨"env-a", [0],
          .i (handleIntEnvironmentVariable ⟨"", "A", true⟩ 7 "env-a" "" [0] []).1, ""⟩] ∧
     (handleStringEnvironmentVariable ⟨"", "A", true⟩ "v" "env-a" "" [0] []).2
      = [] ++ [⟨"env-a", [0],
          .s (handleStringEnvironmentVariable ⟨"", "A", true⟩ "v" "env-a" "" [0] []).1, ""⟩]) :=
  ⟨rfl, rfl,
   flagRegistration_exported_spec ⟨"", "A", true⟩ true 7 "v" "env-a" "" [0] [] rfl rfl⟩

/-- C5: the flag registry's at-most-once invariant — when a name is already
registered, a second bind attempt (of any kind) is silently skipped and the
first entry stays in control — and running the Environment/Flag Binder twice
registers each flag exactly once (the second run adds nothing to the
registry for any record and any two environments), while the second run's
environment writes still take effect, as the concrete double run shows: the
first run writes "A" and registers `env-foo` seeded with "A"; the second run
writes "B" yet the registry still holds exactly the first entry. -/
theorem flagRegistry_first_wins_idempotent :
    (∀ (t : Tags) (b : Bool) (n : Int) (s : String) (flagName envVal : String)
        (path : List Nat) (reg : Registry) (e : FlagEntry),
      flagLookup reg flagName = some e →
        (handleBoolEnvironmentVariable t b flagName envVal path reg).2 = reg ∧
        (handleIntEnvironmentVariable t n flagName envVal path reg).2 = reg ∧
        (handleStringEnvironmentVariable t s flagName envVal path reg).2 = reg ∧
        flagLookup (handleBoolEnvironmentVariable t b flagName envVal path reg).2 flagName
          = some e) ∧
    (∀ (pfx : String) (env1 env2 : Env) (c : Config) (reg : Registry),
      (setFromEnvironment pfx env2 (setFromEnvironment pfx env1 c reg).1
        (setFromEnvironment pfx env1 c reg).2).2 = (setFromEnvironment pfx env1 c reg).2) ∧
    (setFromEnvironment EnvPrefix [("CONFIGURATOR_ENV_FOO", "A")] sampleConfig []).1
      = [.fString sampleTags "A"] ∧
    (setFromEnvironment EnvPrefix [("CONFIGURATOR_ENV_FOO", "A")] sampleConfig []).2
      = [⟨"env-foo", [0], .s "A", ""⟩] ∧
    (setFromEnvironment EnvPrefix [("CONFIGURATOR_ENV_FOO", "B")]
      [.fString sampleTags "A"] [⟨"env-foo", [0], .s "A", ""⟩]).1
      = [.fString sampleTags "B"] ∧
    (setFromEnvironment EnvPrefix [("CONFIGURATOR_ENV_FOO", "B")]
      [.fString sampleTags "A"] [⟨"env-foo", [0], .s "A", ""⟩]).2
      = [⟨"env-foo", [0], .s "A", ""⟩] := by
  refine ⟨?_, setFromEnvironment_twice_reg, rfl, rfl, rfl, rfl⟩
  intro t b n s flagName envVal path reg e h
  have hn : (flagLookup reg flagName).isNone = false := by rw [h]; rfl
  refine ⟨?_, ?_, ?_, ?_⟩ <;>
    simp [handleBoolEnvironmentVariable, handleIntEnvironmentVariable,
      handleStringEnvironmentVariable, hn, h]

/-- Witness for `flagRegistry_first_wins_idempotent`: a second bind of
`env-a` against a registry already holding it is skipped. -/
theorem flagRegistry_first_wins_idempotent_witness :
    flagLookup [⟨"env-a", [], FlagDefault.b true, ""⟩] "env-a"
      = some ⟨"env-a", [], FlagDefault.b true, ""⟩ ∧
    ((handleBoolEnvironmentVariable ⟨"", "A", true⟩ false "env-a" "" [1]
        [⟨"env-a", [], FlagDefault.b true, ""⟩]).2
      = [⟨"env-a", [], FlagDefault.b true, ""⟩] ∧
     (handleIntEnvironmentVariable ⟨"", "A", true⟩ 3 "env-a" "" [1]
        [⟨"env-a", [], FlagDefault.b true, ""⟩]).2
      = [⟨"env-a", [], FlagDefault.b true, ""⟩] ∧
     (handleStringEnvironmentVariable ⟨"", "A", true⟩ "v" "env-a" "" [1]
        [⟨"env-a", [], FlagDefault.b true, ""⟩]).2
      = [⟨"env-a", [], FlagDefault.b true, ""⟩] ∧
     flagLookup (handleBoolEnvironmentVariable ⟨"", "A", true⟩ false "env-a" "" [1]
        [⟨"env-a", [], FlagDefault.b true, ""⟩]).2 "env-a"
      = some ⟨"env-a", [], FlagDefault.b true, ""⟩) :=
  ⟨rfl, flagRegistry_first_wins_idempotent.1 ⟨"", "A", true⟩ false 3 "v" "env-a" "" [1]
    [⟨"env-a", [], FlagDefault.b true, ""⟩] ⟨"env-a", [], FlagDefault.b true, ""⟩ rfl⟩

/-- C6: `setFromConfigFile` returns false exactly when the config-path
environment variable is unset/empty, or reading the file at its value fails,
or the unmarshaller fails on the file's contents — and true otherwise. -/
theorem setFromConfigFile_false_iff (u : Unmarshaller) (cfgLoc : String) (env : Env)
    (fs : FS) (c : Config) :
    (setFromConfigFile u cfgLoc env fs c).1 = false ↔
      (getenv env cfgLoc = "" ∨ readFile fs (getenv env cfgLoc) = none ∨
       ∃ contents c', readFile fs (getenv env cfgLoc) = some contents ∧
         u contents c = .error c') := by
  unfold setFromConfigFile getConfigFileContents
  by_cases h1 : getenv env cfgLoc = ""
  · simp [h1]
  · cases h2 : readFile fs (getenv env cfgLoc) with
    | none => simp [h1, h2]
    | some contents =>
      cases h3 : u contents c with
      | error c' => simp [h1, h2, h3]
      | ok c' => simp [h1, h2, h3]

/-- C7: each file-stage failure — no config-path variable, unreadable file,
or decode failure on which the unmarshaller wrote nothing (as Go's
`json.Unmarshal` does for malformed JSON, which it rejects before decoding)
— makes `setFromConfigFile` report false and leave every field unchanged. -/
theorem setFromConfigFile_failure_unchanged (u : Unmarshaller) (cfgLoc : String)
    (env : Env) (fs : FS) (c : Config) (contents : String) :
    (getenv env cfgLoc = "" → setFromConfigFile u cfgLoc env fs c = (false, c)) ∧
    (readFile fs (getenv env cfgLoc) = none → setFromConfigFile u cfgLoc env fs c = (false, c)) ∧
    (readFile fs (getenv env cfgLoc) = some contents → u contents c = .error c →
      setFromConfigFile u cfgLoc env fs c = (false, c)) := by
  refine ⟨?_, ?_, ?_⟩
  · intro h1
    simp [setFromConfigFile, getConfigFileContents, h1]
  · intro h2
    by_cases h1 : getenv env cfgLoc = ""
    · simp [setFromConfigFile, getConfigFileContents, h1]
    · simp [setFromConfigFile, getConfigFileContents, h1, h2]
  · intro h2 h3
    by_cases h1 : getenv env cfgLoc = ""
    · simp [setFromConfigFile, getConfigFileContents, h1]
    · simp [setFromConfigFile, getConfigFileContents, h1, h2, h3]

/-- Witness for `setFromConfigFile_failure_unchanged` in all three concrete
failure scenarios: empty environment, a path naming no file, and contents the
unmarshaller rejects without writes. -/
theorem setFromConfigFile_failure_unchanged_witness :
    getenv [] ConfigLocation = "" ∧
    setFromConfigFile sampleUnmarshal ConfigLocation [] sampleFS sampleConfig
      = (false, sampleConfig) ∧
    readFile sampleFS (getenv [("CONFIGURATOR_CONFIG", "/missing")] ConfigLocation) = none ∧
    setFromConfigFile sampleUnmarshal ConfigLocation [("CONFIGURATOR_CONFIG", "/missing")]
      sampleFS sampleConfig = (false, sampleConfig) ∧
    readFile [("/cfg", "BAD")] (getenv sampleEnv ConfigLocation) = some "BAD" ∧
    sampleUnmarshal "BAD" sampleConfig = .error sampleConfig ∧
    setFromConfigFile sampleUnmarshal ConfigLocation sampleEnv [("/cfg", "BAD")]
      sampleConfig = (false, sampleConfig) :=
  ⟨rfl,
   (setFromConfigFile_failure_unchanged sampleUnmarshal ConfigLocation [] sampleFS
     sampleConfig "").1 rfl,
   rfl,
   (setFromConfigFile_failure_unchanged sampleUnmarshal ConfigLocation
     [("CONFIGURATOR_CONFIG", "/missing")] sampleFS sampleConfig "").2.1 rfl,
   rfl, rfl,
   (setFromConfigFile_failure_unchanged sampleUnmarshal ConfigLocation sampleEnv
     [("/cfg", "BAD")] sampleConfig "BAD").2.2 rfl rfl⟩

/-- C8 counterexample: with the stored prefix set to the non-uppercase value
"img_", stripping is NOT case-insensitive against the stored prefix:
`formFlagName (Prefix ++ "foo_bar")` yields "img-foo-bar", not the "foo-bar"
the claim requires. -/
theorem formFlagName_case_counterexample :
    formFlagName "img_" ("img_" ++ "foo_bar") = "img-foo-bar" ∧
    formFlagName "img_" ("img_" ++ "foo_bar") ≠ "foo-bar" :=
  ⟨rfl, by decide⟩

/-- C8 (amended): `formFlagName` is total: it uppercases its input, strips
the stored prefix exactly when the uppercased input starts with the stored
prefix verbatim (a case-sensitive match against the stored prefix, hence
insensitive to the input's case only; with the default all-uppercase prefix
this gives the claimed examples, including a lowercase-prefixed input),
replaces underscores with hyphens, and lowercases. -/
theorem formFlagName_spec :
    (∀ pfx temp : String, pfx.data.isPrefixOf (goToUpper temp).data = true →
      formFlagName pfx temp
        = goToLower (replaceUnderscores ⟨(goToUpper temp).data.drop pfx.data.length⟩)) ∧
    (∀ pfx temp : String, pfx.data.isPrefixOf (goToUpper temp).data = false →
      formFlagName pfx temp = goToLower (replaceUnderscores (goToUpper temp))) ∧
    formFlagName EnvPrefix "TEST" = "test" ∧
    formFlagName EnvPrefix "test_foo" = "test-foo" ∧
    formFlagName EnvPrefix (EnvPrefix ++ "foo_bar") = "foo-bar" ∧
    formFlagName EnvPrefix (goToLower EnvPrefix ++ "FOO_BAR") = "foo-bar" := by
  refine ⟨?_, ?_, rfl, rfl, rfl, rfl⟩
  · intro pfx temp h
    simp [formFlagName, trimLeading, h]
  · intro pfx temp h
    simp [formFlagName, trimLeading, h]

/-- Witness for `formFlagName_spec` at concrete prefixed and unprefixed
inputs. -/
theorem formFlagName_spec_witness :
    ("AB_" : String).data.isPrefixOf (goToUpper "ab_cd").data = true ∧
    formFlagName "AB_" "ab_cd"
      = goToLower (replaceUnderscores ⟨(goToUpper "ab_cd").data.drop
          ("AB_" : String).data.length⟩) ∧
    ("XY_" : String).data.isPrefixOf (goToUpper "ab_cd").data = false ∧
    formFlagName "XY_" "ab_cd" = goToLower (replaceUnderscores (goToUpper "ab_cd")) :=
  ⟨rfl, formFlagName_spec.1 "AB_" "ab_cd" rfl, rfl, formFlagName_spec.2.1 "XY_" "ab_cd" rfl⟩

/-- C9 counterexample: a string field with an empty env suffix is NOT immune
to the process environment — when the variable named by the bare prefix
(`CONFIGURATOR_`) is set to "hello", the field is overwritten with "hello". -/
theorem emptyEnvTag_counterexample :
    (setFromEnvironment EnvPrefix [("CONFIGURATOR_", "hello")]
      [.fString ⟨"", "", true⟩ "orig"] []).1 = [.fString ⟨"", "", true⟩ "hello"] ∧
    ("hello" : String) ≠ "orig" :=
  ⟨rfl, by decide⟩

/-- C9 (amended): a field whose env suffix is empty reads the environment
variable named exactly by the uppercased Global Prefix; whenever that
variable is unset or empty — in particular whenever the environment does not
bind the bare prefix name — the field is left unchanged by the environment
overlay. -/
theorem emptyEnvTag_unchanged (pfx : String) (env : Env) (path : List Nat)
    (reg : Registry) (t : Tags) (b : Bool) (n : Int) (s : String)
    (htag : t.envTag = "") (henv : getenv env (goToUpper pfx) = "") :
    (handleEnvField pfx env path (.fBool t b) reg).1 = .fBool t b ∧
    (handleEnvField pfx env path (.fInt t n) reg).1 = .fInt t n ∧
    (handleEnvField pfx env path (.fString t s) reg).1 = .fString t s := by
  refine ⟨?_, ?_, ?_⟩ <;>
    · simp [handleEnvField, handleBoolEnvironmentVariable, handleIntEnvironmentVariable,
        handleStringEnvironmentVariable, htag, henv]
      split <;> rfl

/-- Witness for `emptyEnvTag_unchanged` with an environment not binding the
bare prefix name. -/
theorem emptyEnvTag_unchanged_witness :
    (⟨"", "", true⟩ : Tags).envTag = "" ∧
    getenv [("OTHER", "x")] (goToUpper "P_") = "" ∧
    ((handleEnvField "P_" [("OTHER", "x")] [0] (.fBool ⟨"", "", true⟩ true) []).1
        = .fBool ⟨"", "", true⟩ true ∧
     (handleEnvField "P_" [("OTHER", "x")] [0] (.fInt ⟨"", "", true⟩ 3) []).1
        = .fInt ⟨"", "", true⟩ 3 ∧
     (handleEnvField "P_" [("OTHER", "x")] [0] (.fString ⟨"", "", true⟩ "s") []).1
        = .fString ⟨"", "", true⟩ "s") :=
  ⟨rfl, rfl,
   emptyEnvTag_unchanged "P_" [("OTHER", "x")] [0] [] ⟨"", "", true⟩ true 3 "s" rfl rfl⟩

/-- C10: flags are registered only for exported fields: a field whose
exported bit is false (Go: non-empty `PkgPath`) never registers a flag,
whatever the registry (in particular when the computed name is absent), the
environment value, or the field's kind. -/
theorem unexported_no_flag (dTag eTag flagName envVal : String) (path : List Nat)
    (reg : Registry) (b : Bool) (n : Int) (s : String) :
    (handleBoolEnvironmentVariable ⟨dTag, eTag, false⟩ b flagName envVal path reg).2 = reg ∧
    (handleIntEnvironmentVariable ⟨dTag, eTag, false⟩ n flagName envVal path reg).2 = reg ∧
    (handleStringEnvironmentVariable ⟨dTag, eTag, false⟩ s flagName envVal path reg).2 = reg := by
  refine ⟨?_, ?_, ?_⟩ <;>
    simp [handleBoolEnvironmentVariable, handleIntEnvironmentVariable,
      handleStringEnvironmentVariable]

end Configurator
